import Mathlib

/-!
Shallow embedding of `torch/nested/_internal/cached_tensor.py`.

The Python module defines a tensor wrapper subclass `CachedTensor` holding a
string-keyed mapping `metadata` of component tensors and a distinguished
`source_field`; construction copies shape/stride/offset/device/layout/
requires_grad/dtype from `metadata[source_field]`.  A torch-dispatch hook
either calls a registered override from a swappable global `_func_registry`
or unwraps every `CachedTensor` in the arguments to its own source component
and replays the operation.  `set_func_registry` is a context manager that
swaps the global registry and restores it in a `finally` block;
`register_cached_tensor_func` is a decorator registering override functions.

Modelling conventions:
  * Python dicts become association lists `List (key × value)` (insertion
    order preserved, keys unique in well-formed dicts); `d[k]` lookups that
    may raise `KeyError` become `Option` via `List.lookup`.
  * Host tensors are opaque records of the metadata the code reads, plus a
    `payload` tag distinguishing otherwise-identical tensors.
  * Raising `AttributeError` / `KeyError` becomes `Except` / `Option`.
  * The mutable module global `_func_registry` becomes explicit state
    passing: stateful computations are functions `Registry → Registry × _`.
-/

/-- An opaque host tensor: the fields `CachedTensor.__new__` reads from the
source component, plus a payload tag so distinct tensors can share metadata. -/
structure HostTensor where
  shape : List Nat
  strides : List Nat
  storage_offset : Nat
  device : String
  layout : String
  requires_grad : Bool
  dtype : String
  payload : Nat
deriving Repr, DecidableEq, Inhabited

/-- A raised `AttributeError`, recording the type name and attribute name that
the Python message interpolates. -/
structure AttributeErr where
  typeName : String
  attrName : String
deriving Repr, DecidableEq

/-- The `CachedTensor` wrapper subclass.  `metadata` and `source_field` are
the instance attributes set in `__init__`; the remaining fields are the
wrapper metadata that `__new__` copies from `metadata[source_field]` via
`_make_wrapper_subclass`.  `nested_int_ref` is the compile-only slot,
initialised to `None`. -/
structure CachedTensor where
  metadata : List (String × HostTensor)
  source_field : String
  shape : List Nat
  strides : List Nat
  storage_offset : Nat
  device : String
  layout : String
  requires_grad : Bool
  dtype : String
  nested_int_ref : Option Nat
deriving Repr, DecidableEq

/-- `CachedTensor.__new__` followed by `__init__`: looks up
`metadata[source_field]` (a `KeyError`, i.e. `none`, if absent — in that case
no object is constructed at all), copies the source tensor's metadata into
the wrapper, stores `metadata` and `source_field`, and sets
`nested_int_ref = None`. -/
def CachedTensor.new (metadata : List (String × HostTensor))
    (source_field : String) : Option CachedTensor :=
  match List.lookup source_field metadata with
  | none => none
  | some source =>
      some { metadata := metadata
             source_field := source_field
             shape := source.shape
             strides := source.strides
             storage_offset := source.storage_offset
             device := source.device
             layout := source.layout
             requires_grad := source.requires_grad
             dtype := source.dtype
             nested_int_ref := none }

/-- `CachedTensor.__getattr__`: a name present in `metadata` returns that
component; any other name raises `AttributeError` naming the type and the
requested attribute. -/
def CachedTensor.getattr (self : CachedTensor) (name : String) :
    Except AttributeErr HostTensor :=
  match List.lookup name self.metadata with
  | some v => Except.ok v
  | none => Except.error { typeName := "CachedTensor", attrName := name }

/-- The context dictionary returned by `__tensor_flatten__`: it carries only
`source_field`. -/
structure FlattenCtx where
  source_field : String
deriving Repr, DecidableEq

/-- `CachedTensor.__tensor_flatten__`: the list of metadata keys in insertion
order, and a context carrying `source_field`. -/
def CachedTensor.tensor_flatten (self : CachedTensor) :
    List String × FlattenCtx :=
  (self.metadata.map Prod.fst, { source_field := self.source_field })

/-- `CachedTensor.__tensor_unflatten__`: rebuilds a `CachedTensor` from the
inner-tensor dictionary and the context; `outer_size` and `outer_stride` are
ignored by the source. -/
def CachedTensor.tensor_unflatten (inner_tensors : List (String × HostTensor))
    (meta : FlattenCtx) (outer_size outer_stride : Option (List Nat)) :
    Option CachedTensor :=
  CachedTensor.new inner_tensors meta.source_field

/-- The identity round trip performed by the flatten/unflatten framework:
flatten `p`, fetch each listed inner tensor from `p` by attribute access
(unchanged), and reconstruct. -/
def flattenRoundTrip (p : CachedTensor) : Option CachedTensor :=
  match p.tensor_flatten with
  | (keys, ctx) =>
      let inner := keys.filterMap fun k =>
        match p.getattr k with
        | Except.ok v => some (k, v)
        | Except.error _ => none
      CachedTensor.tensor_unflatten inner ctx none none

/-- Argument trees handled by `pytree.tree_map_only`: a `CachedTensor` leaf,
an ordinary tensor leaf, and the two container kinds the kwargs/args of the
dispatch hook use (sequences and string-keyed dictionaries). -/
inductive ArgTree where
  | proxy (c : CachedTensor)
  | tensor (t : HostTensor)
  | list (ts : List ArgTree)
  | dict (kvs : List (String × ArgTree))
deriving Repr

/-- The unwrapping lambda of `__torch_dispatch__`:
`lambda x: x.metadata[x.source_field]`.  On a well-formed proxy the lookup
succeeds; `getD default` stands in for the `KeyError` that cannot occur. -/
def CachedTensor.source_component (c : CachedTensor) : HostTensor :=
  (List.lookup c.source_field c.metadata).getD default

mutual
/-- `pytree.tree_map_only(CachedTensor, lambda x: x.metadata[x.source_field], -)`:
recursively replace every proxy leaf by its own source component. -/
def unwrapTree : ArgTree → ArgTree
  | ArgTree.proxy c => ArgTree.tensor c.source_component
  | ArgTree.tensor t => ArgTree.tensor t
  | ArgTree.list ts => ArgTree.list (unwrapList ts)
  | ArgTree.dict kvs => ArgTree.dict (unwrapDict kvs)

/-- Unwrapping mapped across a sequence of argument trees. -/
def unwrapList : List ArgTree → List ArgTree
  | [] => []
  | t :: ts => unwrapTree t :: unwrapList ts

/-- Unwrapping mapped across the values of a string-keyed dictionary. -/
def unwrapDict : List (String × ArgTree) → List (String × ArgTree)
  | [] => []
  | (k, t) :: kvs => (k, unwrapTree t) :: unwrapDict kvs
end

mutual
/-- `true` iff no `CachedTensor` proxy occurs anywhere in the tree. -/
def proxyFree : ArgTree → Bool
  | ArgTree.proxy _ => false
  | ArgTree.tensor _ => true
  | ArgTree.list ts => proxyFreeList ts
  | ArgTree.dict kvs => proxyFreeDict kvs

/-- `proxyFree` across a sequence. -/
def proxyFreeList : List ArgTree → Bool
  | [] => true
  | t :: ts => proxyFree t && proxyFreeList ts

/-- `proxyFree` across dictionary values. -/
def proxyFreeDict : List (String × ArgTree) → Bool
  | [] => true
  | (_, t) :: kvs => proxyFree t && proxyFreeDict kvs
end

/-- Operation identities (`aten` ops) are opaque tokens. -/
abbrev Op := Nat

/-- An override registered in `_func_registry`: called as
`func(op, *args, **kwargs)` and returning a host value. -/
abbrev OverrideFn := Op → List ArgTree → List (String × ArgTree) → ArgTree

/-- A `_func_registry` value: a dictionary from op identity to override. -/
abbrev Registry := List (Op × OverrideFn)

/-- `CachedTensor.__torch_dispatch__`, parameterised by the currently active
`_func_registry` and by the host execution path `hostCall` (the opaque
`op(*unwrapped_args, **unwrapped_kwargs)` call).  A missing kwargs dict
(`None`) is normalised to empty; a registered override receives the
arguments untouched; otherwise every proxy is unwrapped to its own source
component and the operation is replayed. -/
def torch_dispatch (registry : Registry)
    (hostCall : Op → List ArgTree → List (String × ArgTree) → ArgTree)
    (op : Op) (args : List ArgTree)
    (kwargs : Option (List (String × ArgTree))) : ArgTree :=
  let kwargs := kwargs.getD []
  match List.lookup op registry with
  | some f => f op args kwargs
  | none => hostCall op (unwrapList args) (unwrapDict kwargs)

/-- The `set_func_registry` context manager, as a transformer of the global
`_func_registry` state: save the current registry, install `registry`, run
`body` (which reads the installed registry as its initial state and may
itself end in an exception), and in the `finally` block restore the saved
registry whatever `body` did. -/
def set_func_registry {ε α : Type} (registry : Registry)
    (body : Registry → Registry × Except ε α) (s : Registry) :
    Registry × Except ε α :=
  let old_registry := s
  let res := body registry
  (old_registry, res.2)

/-- Python dictionary assignment `d[k] = v` on an association list: replace
the value in place if the key is present, otherwise append the binding. -/
def dictInsert {κ ν : Type} [BEq κ] : List (κ × ν) → κ → ν → List (κ × ν)
  | [], k, v => [(k, v)]
  | (k0, v0) :: rest, k, v =>
      if k0 == k then (k0, v) :: rest
      else (k0, v0) :: dictInsert rest k v

/-- `register_cached_tensor_func(aten_op)` returns a decorator `wrapper` that
stores `func` under `aten_op` in the module-level `_func_registry` (here the
explicit registry state) and returns `func` unchanged. -/
def register_cached_tensor_func (aten_op : Op) :
    OverrideFn → Registry → Registry × OverrideFn :=
  fun func reg => (dictInsert reg aten_op func, func)

/-! ### Helper lemmas -/

mutual
/-- After unwrapping, no proxy remains anywhere in a tree. -/
theorem proxyFree_unwrapTree : ∀ t : ArgTree, proxyFree (unwrapTree t) = true
  | ArgTree.proxy c => by simp [unwrapTree, proxyFree]
  | ArgTree.tensor t => by simp [unwrapTree, proxyFree]
  | ArgTree.list ts => by
      simp only [unwrapTree, proxyFree]
      exact proxyFree_unwrapList ts
  | ArgTree.dict kvs => by
      simp only [unwrapTree, proxyFree]
      exact proxyFree_unwrapDict kvs

/-- After unwrapping, no proxy remains in a sequence. -/
theorem proxyFree_unwrapList : ∀ ts : List ArgTree,
    proxyFreeList (unwrapList ts) = true
  | [] => by simp [unwrapList, proxyFreeList]
  | t :: ts => by
      simp only [unwrapList, proxyFreeList, Bool.and_eq_true]
      exact ⟨proxyFree_unwrapTree t, proxyFree_unwrapList ts⟩

/-- After unwrapping, no proxy remains among dictionary values. -/
theorem proxyFree_unwrapDict : ∀ kvs : List (String × ArgTree),
    proxyFreeDict (unwrapDict kvs) = true
  | [] => by simp [unwrapDict, proxyFreeDict]
  | (k, t) :: kvs => by
      simp only [unwrapDict, proxyFreeDict, Bool.and_eq_true]
      exact ⟨proxyFree_unwrapTree t, proxyFree_unwrapDict kvs⟩
end

/-- Looking up a key just inserted by Python dict assignment finds the new
value. -/
theorem lookup_dictInsert_self {κ ν : Type} [BEq κ] [LawfulBEq κ]
    (l : List (κ × ν)) (k : κ) (v : ν) :
    List.lookup k (dictInsert l k v) = some v := by
  induction l with
  | nil => simp [dictInsert, List.lookup]
  | cons hd rest ih =>
      obtain ⟨k0, v0⟩ := hd
      by_cases h : k0 = k
      · subst h
        simp [dictInsert, List.lookup]
      · have hb : (k0 == k) = false := beq_false_of_ne h
        have hb2 : (k == k0) = false := beq_false_of_ne (Ne.symm h)
        simp [dictInsert, hb, List.lookup, hb2, ih]

/-- Python dict assignment leaves every other key's binding unchanged. -/
theorem lookup_dictInsert_ne {κ ν : Type} [BEq κ] [LawfulBEq κ]
    (l : List (κ × ν)) (k other : κ) (v : ν) (hne : other ≠ k) :
    List.lookup other (dictInsert l k v) = List.lookup other l := by
  have hob : (other == k) = false := beq_false_of_ne hne
  induction l with
  | nil => simp [dictInsert, List.lookup, hob]
  | cons hd rest ih =>
      obtain ⟨k0, v0⟩ := hd
      by_cases h : k0 = k
      · subst h
        simp [dictInsert, List.lookup, hob]
      · have hb : (k0 == k) = false := beq_false_of_ne h
        by_cases ho : other = k0
        · subst ho
          simp [dictInsert, hb, List.lookup]
        · have hob0 : (other == k0) = false := beq_false_of_ne ho
          simp [dictInsert, hb, List.lookup, hob0, ih]

/-- Walking a well-formed dictionary by its own key list and looking each key
back up reproduces the dictionary. -/
theorem keys_filterMap_lookup (md : List (String × HostTensor))
    (h : (md.map Prod.fst).Nodup) :
    ((md.map Prod.fst).filterMap fun k =>
        (List.lookup k md).map fun v => (k, v)) = md := by
  induction md with
  | nil => rfl
  | cons hd rest ih =>
      obtain ⟨k0, v0⟩ := hd
      rw [List.map_cons, List.filterMap_cons]
      have hnd := List.nodup_cons.mp h
      have h0 : List.lookup k0 ((k0, v0) :: rest) = some v0 := by
        simp [List.lookup]
      rw [h0]
      have hcongr : ∀ k ∈ rest.map Prod.fst,
          ((List.lookup k ((k0, v0) :: rest)).map fun v => (k, v)) =
            ((List.lookup k rest).map fun v => (k, v)) := by
        intro k hk
        have hne : (k == k0) = false :=
          beq_false_of_ne fun he => hnd.1 (he ▸ hk)
        simp [List.lookup, hne]
      rw [List.filterMap_congr hcongr, ih hnd.2]
      rfl

/-! ### Concrete sample values (for witnesses) -/

/-- A sample source tensor of shape `[4, 3]` (the "values" component). -/
def tV : HostTensor :=
  { shape := [4, 3], strides := [3, 1], storage_offset := 0, device := "cpu",
    layout := "strided", requires_grad := false, dtype := "float32",
    payload := 1 }

/-- A sample auxiliary tensor of shape `[5]` (the "offsets" component). -/
def tO : HostTensor :=
  { shape := [5], strides := [1], storage_offset := 0, device := "cpu",
    layout := "strided", requires_grad := false, dtype := "int64",
    payload := 2 }

/-- A sample two-entry component mapping whose source key is the second key. -/
def mdVO : List (String × HostTensor) := [("offsets", tO), ("values", tV)]

/-- The proxy that `CachedTensor.new mdVO "values"` constructs. -/
def pVO : CachedTensor :=
  { metadata := mdVO, source_field := "values", shape := [4, 3],
    strides := [3, 1], storage_offset := 0, device := "cpu",
    layout := "strided", requires_grad := false, dtype := "float32",
    nested_int_ref := none }

/-- A sample host execution path that wraps its positional arguments in a
list value, so witnesses can observe exactly what it was called with. -/
def hostList : Op → List ArgTree → List (String × ArgTree) → ArgTree :=
  fun _ args _ => ArgTree.list args

/-! ### Claim theorems -/

/-- C5: for every non-empty component mapping and source key present in it,
construction produces a proxy whose derived shape, strides, storage offset,
device, layout, requires-grad flag and dtype equal exactly those of
`components[source_key]`. -/
theorem new_copies_source_metadata (md : List (String × HostTensor))
    (sf : String) (src : HostTensor) (p : CachedTensor)
    (hsrc : List.lookup sf md = some src)
    (hmk : CachedTensor.new md sf = some p) :
    (CachedTensor.new md sf).isSome = true ∧
    p.shape = src.shape ∧ p.strides = src.strides ∧
    p.storage_offset = src.storage_offset ∧ p.device = src.device ∧
    p.layout = src.layout ∧ p.requires_grad = src.requires_grad ∧
    p.dtype = src.dtype := by
  rw [CachedTensor.new, hsrc] at hmk
  cases hmk
  exact ⟨by rw [CachedTensor.new, hsrc]; rfl, rfl, rfl, rfl, rfl, rfl, rfl, rfl⟩

/-- Witness for C5 at the sample mapping, with the source key second. -/
theorem new_copies_source_metadata_witness :
    (CachedTensor.new mdVO "values").isSome = true ∧
    pVO.shape = tV.shape ∧ pVO.strides = tV.strides ∧
    pVO.storage_offset = tV.storage_offset ∧ pVO.device = tV.device ∧
    pVO.layout = tV.layout ∧ pVO.requires_grad = tV.requires_grad ∧
    pVO.dtype = tV.dtype :=
  new_copies_source_metadata mdVO "values" tV pVO (by decide) (by decide)

/-- C6: attribute lookup on a proxy returns the named component whenever the
name is a metadata key, and for any other name fails with an attribute error
carrying the type name `CachedTensor` and the requested name — never a
default value. -/
theorem getattr_component_or_error (p : CachedTensor) (name : String) :
    (∀ v, List.lookup name p.metadata = some v →
      p.getattr name = Except.ok v) ∧
    (List.lookup name p.metadata = none →
      p.getattr name =
        Except.error { typeName := "CachedTensor", attrName := name }) := by
  constructor
  · intro v hv
    simp [CachedTensor.getattr, hv]
  · intro hn
    simp [CachedTensor.getattr, hn]

/-- Witness for C6: on the sample proxy, the "offsets" component is returned
and the undefined name "lengths" raises the attribute error. -/
theorem getattr_component_or_error_witness :
    pVO.getattr "offsets" = Except.ok tO ∧
    pVO.getattr "lengths" =
      Except.error { typeName := "CachedTensor", attrName := "lengths" } :=
  ⟨(getattr_component_or_error pVO "offsets").1 tO (by decide),
   (getattr_component_or_error pVO "lengths").2 (by decide)⟩

/-- C7: constructing with a source key absent from the component mapping is a
lookup failure producing no proxy object at all. -/
theorem new_missing_source_key_fails (md : List (String × HostTensor))
    (sf : String) (h : List.lookup sf md = none) :
    CachedTensor.new md sf = none := by
  rw [CachedTensor.new, h]

/-- Witness for C7: the sample mapping has no "lengths" key, so construction
with source key "lengths" fails. -/
theorem new_missing_source_key_fails_witness :
    CachedTensor.new mdVO "lengths" = none :=
  new_missing_source_key_fails mdVO "lengths" (by decide)

/-- C4: flatten returns every metadata key in insertion order plus a context
carrying the source key, and unflatten on the unchanged flatten output
reconstructs a proxy structurally identical to the original — same keys,
values, source key and derived metadata — for any well-formed constructed
proxy, including multi-entry mappings whose source key is not first. -/
theorem flatten_unflatten_roundtrip (md : List (String × HostTensor))
    (sf : String) (p : CachedTensor)
    (hmk : CachedTensor.new md sf = some p)
    (hnd : (md.map Prod.fst).Nodup) :
    p.tensor_flatten = (md.map Prod.fst, { source_field := sf }) ∧
    flattenRoundTrip p = some p := by
  rw [CachedTensor.new] at hmk
  cases hsrc : List.lookup sf md with
  | none => rw [hsrc] at hmk; exact absurd hmk (by simp)
  | some src =>
      rw [hsrc] at hmk
      cases hmk
      refine ⟨rfl, ?_⟩
      rw [flattenRoundTrip]
      simp only [CachedTensor.tensor_flatten]
      have hfun : ∀ k ∈ md.map Prod.fst,
          (match CachedTensor.getattr
              { metadata := md, source_field := sf, shape := src.shape,
                strides := src.strides,
                storage_offset := src.storage_offset, device := src.device,
                layout := src.layout, requires_grad := src.requires_grad,
                dtype := src.dtype, nested_int_ref := none } k with
            | Except.ok v => some (k, v)
            | Except.error _ => none) =
            ((List.lookup k md).map fun v => (k, v)) := by
        intro k _
        rw [CachedTensor.getattr]
        cases List.lookup k md <;> rfl
      rw [List.filterMap_congr hfun, keys_filterMap_lookup md hnd]
      rw [CachedTensor.tensor_unflatten, CachedTensor.new, hsrc]

/-- Witness for C4: the sample proxy has two components with the source key
second; flatten lists both keys and the round trip reproduces the proxy. -/
theorem flatten_unflatten_roundtrip_witness :
    pVO.tensor_flatten = (["offsets", "values"], { source_field := "values" }) ∧
    flattenRoundTrip pVO = some pVO :=
  flatten_unflatten_roundtrip mdVO "values" pVO (by decide) (by decide)

/-- C1: when the operation is not in the active registry, dispatch replaces
every proxy anywhere in the positional and keyword trees by that proxy's own
source component, leaving no proxy behind, invokes the operation on the
unwrapped trees via the host path and returns that result verbatim; in
particular dispatch of `op` on `[p]` equals calling the host path directly
on `p.metadata[p.source_field]`. -/
theorem dispatch_unregistered_unwraps (reg : Registry)
    (hostCall : Op → List ArgTree → List (String × ArgTree) → ArgTree)
    (op : Op) (args : List ArgTree) (kw : List (String × ArgTree))
    (h : List.lookup op reg = none) :
    torch_dispatch reg hostCall op args (some kw) =
      hostCall op (unwrapList args) (unwrapDict kw) ∧
    (∀ p src, List.lookup p.source_field p.metadata = some src →
      unwrapTree (ArgTree.proxy p) = ArgTree.tensor src) ∧
    (∀ t, proxyFree (unwrapTree t) = true) ∧
    (∀ p src, List.lookup p.source_field p.metadata = some src →
      torch_dispatch reg hostCall op [ArgTree.proxy p] (some []) =
        hostCall op [ArgTree.tensor src] []) := by
  refine ⟨by simp [torch_dispatch, h], ?_, proxyFree_unwrapTree, ?_⟩
  · intro p src hs
    simp [unwrapTree, CachedTensor.source_component, hs]
  · intro p src hs
    simp [torch_dispatch, h, unwrapList, unwrapDict, unwrapTree,
      CachedTensor.source_component, hs]

/-- Witness for C1: with an empty registry, dispatching on the sample proxy
calls the host path on the source component `tV` alone. -/
theorem dispatch_unregistered_unwraps_witness :
    torch_dispatch [] hostList 0 [ArgTree.proxy pVO] (some []) =
      hostList 0 [ArgTree.tensor tV] [] :=
  (dispatch_unregistered_unwraps [] hostList 0 [ArgTree.proxy pVO] []
    rfl).2.2.2 pVO tV (by decide)

/-- C2: when the operation is a key of the active registry, dispatch invokes
the registered override with the operation and the untouched argument trees
— no proxy unwrapped — and returns the override result directly. -/
theorem dispatch_registered_calls_override (reg : Registry)
    (hostCall : Op → List ArgTree → List (String × ArgTree) → ArgTree)
    (op : Op) (args : List ArgTree) (kw : List (String × ArgTree))
    (f : OverrideFn) (h : List.lookup op reg = some f) :
    torch_dispatch reg hostCall op args (some kw) = f op args kw := by
  simp [torch_dispatch, h]

/-- Witness for C2: a registry mapping op `0` to an override that echoes its
positional arguments receives the proxy intact, not its source component. -/
theorem dispatch_registered_calls_override_witness :
    torch_dispatch [(0, fun _ args _ => ArgTree.list args)] hostList 0
      [ArgTree.proxy pVO] (some []) = ArgTree.list [ArgTree.proxy pVO] :=
  dispatch_registered_calls_override [(0, fun _ args _ => ArgTree.list args)]
    hostList 0 [ArgTree.proxy pVO] [] (fun _ args _ => ArgTree.list args) rfl

/-- C10: a missing (`None`) kwargs dictionary is normalised to empty before
either branch runs: dispatch with `none` equals dispatch with an empty
mapping, a registered override is called with no keyword arguments, and the
fallback invokes the host path with no keyword arguments. -/
theorem dispatch_none_kwargs_normalised (reg : Registry)
    (hostCall : Op → List ArgTree → List (String × ArgTree) → ArgTree)
    (op : Op) (args : List ArgTree) :
    torch_dispatch reg hostCall op args none =
      torch_dispatch reg hostCall op args (some []) ∧
    (∀ f, List.lookup op reg = some f →
      torch_dispatch reg hostCall op args none = f op args []) ∧
    (List.lookup op reg = none →
      torch_dispatch reg hostCall op args none =
        hostCall op (unwrapList args) []) := by
  refine ⟨rfl, ?_, ?_⟩
  · intro f h
    simp [torch_dispatch, h]
  · intro h
    simp [torch_dispatch, h, unwrapDict]

/-- Witness for C10: with an empty registry and no kwargs dict, the fallback
runs with an empty keyword mapping. -/
theorem dispatch_none_kwargs_normalised_witness :
    torch_dispatch [] hostList 0 [ArgTree.tensor tO] none =
      hostList 0 [ArgTree.tensor tO] [] := by
  have h := (dispatch_none_kwargs_normalised [] hostList 0
    [ArgTree.tensor tO]).2.2 rfl
  simpa [unwrapList, unwrapTree] using h

/-- A sample non-empty registry for scope and registration witnesses. -/
def regSample : Registry := [(5, fun _ args _ => ArgTree.list args)]

/-- A sample body for the scope witness that mutates the registry state and
ends in an exception. -/
def bodyErr : Registry → Registry × Except Nat Nat :=
  fun _ => ([], Except.error 7)

/-- A sample body for the scope witness that mutates the registry state and
returns normally. -/
def bodyOk : Registry → Registry × Except Nat Nat :=
  fun _ => ([], Except.ok 3)

/-- C3: scoped activation saves the registry active at entry, installs the
new registry for the duration of the body, restores the saved registry on
every exit path — normal and exceptional alike — and nested activations
restore in LIFO order, leaving the pre-outer registry active after both
scopes exit. -/
theorem set_func_registry_scoped (ε α : Type) (R : Registry)
    (body : Registry → Registry × Except ε α) (s : Registry) :
    (set_func_registry R body s).1 = s ∧
    (set_func_registry R body s).2 = (body R).2 ∧
    (∀ s1 e, body R = (s1, Except.error e) →
      set_func_registry R body s = (s, Except.error e)) ∧
    (∀ (R1 : Registry) (inner : Registry → Registry × Except ε α),
      set_func_registry R (fun t => set_func_registry R1 inner t) s =
        (s, (inner R1).2)) := by
  refine ⟨rfl, rfl, ?_, ?_⟩
  · intro s1 e he
    simp [set_func_registry, he]
  · intro R1 inner
    rfl

/-- Witness for C3: a body that clobbers the registry state and raises still
has the saved registry restored, and a nested activation restores the
pre-outer registry. -/
theorem set_func_registry_scoped_witness :
    set_func_registry [] bodyErr regSample = (regSample, Except.error 7) ∧
    set_func_registry [] (fun t => set_func_registry [] bodyOk t) regSample =
      (regSample, Except.ok 3) :=
  ⟨(set_func_registry_scoped Nat Nat [] bodyErr regSample).2.2.1 [] 7 rfl,
   (set_func_registry_scoped Nat Nat [] bodyErr regSample).2.2.2 [] bodyOk⟩

/-- C8: registration adds or replaces the binding for the given operation in
the module-level registry consulted by dispatch, leaves every other
operation's binding unchanged, raises no error on re-registration, and the
last write wins. -/
theorem register_updates_registry (reg : Registry) (aten_op : Op)
    (func : OverrideFn) :
    List.lookup aten_op (register_cached_tensor_func aten_op func reg).1 =
      some func ∧
    (∀ other, other ≠ aten_op →
      List.lookup other (register_cached_tensor_func aten_op func reg).1 =
        List.lookup other reg) ∧
    (∀ func2, List.lookup aten_op
        (register_cached_tensor_func aten_op func2
          (register_cached_tensor_func aten_op func reg).1).1 = some func2) := by
  refine ⟨lookup_dictInsert_self reg aten_op func, ?_, ?_⟩
  · intro other hne
    exact lookup_dictInsert_ne reg aten_op other func hne
  · intro func2
    exact lookup_dictInsert_self _ aten_op func2

/-- A sample override used by the registration witness. -/
def ovrA : OverrideFn := fun _ _ _ => ArgTree.list []

/-- A second sample override used by the registration witness. -/
def ovrB : OverrideFn := fun _ args _ => ArgTree.list args

/-- Witness for C8: registering op `0` makes it resolvable, leaves op `5` of
the sample registry untouched, and re-registering op `0` overwrites. -/
theorem register_updates_registry_witness :
    List.lookup 0 (register_cached_tensor_func 0 ovrA []).1 = some ovrA ∧
    List.lookup 5 (register_cached_tensor_func 0 ovrA regSample).1 =
      List.lookup 5 regSample ∧
    List.lookup 0 (register_cached_tensor_func 0 ovrB
      (register_cached_tensor_func 0 ovrA []).1).1 = some ovrB :=
  ⟨(register_updates_registry [] 0 ovrA).1,
   (register_updates_registry regSample 0 ovrA).2.1 5 (by decide),
   (register_updates_registry [] 0 ovrA).2.2 ovrB⟩

/-- C9: the decorator produced by `register_cached_tensor_func` returns the
decorated function itself unchanged, beyond recording it in the registry. -/
theorem register_returns_func_unchanged (aten_op : Op) (func : OverrideFn)
    (reg : Registry) :
    (register_cached_tensor_func aten_op func reg).2 = func := rfl
